import Mathlib

/-!
Verification development for the telos skill-execution engine.

Shallow embedding of the core of the repository:
  - `src/telos/provider.py` : dataclasses, `OllamaProvider._convert_messages`,
    `OllamaProvider.stream_completion` (chunk-delta reassembly);
  - `src/telos/executor.py` : `BUILTIN_TOOLS`, `_execute_builtin_tool`,
    `_execute_simple`, `_execute_with_mcp`;
  - `src/telos/mcp_client.py` : `McpContext.call_tool`, `connect_mcp_servers`.

Side-effecting primitives (filesystem, subprocess, network, MCP sessions,
the model provider itself) are abstracted as explicit oracle parameters;
everything the Python control flow does with their results is embedded
faithfully, including the truthiness tests Python performs on strings,
lists and `None`.
-/

/-- JSON-like values, standing in for Python dict/list/str/int/bool/None
payloads (tool arguments, tool input schemas). -/
inductive Json where
  | null : Json
  | bool (b : Bool) : Json
  | num (n : Int) : Json
  | str (s : String) : Json
  | arr (xs : List Json) : Json
  | obj (kvs : List (String × Json)) : Json
deriving Repr

mutual

/-- Embedding of `json.dumps` as used by `_convert_messages`
(`arguments: _json.dumps(block["input"])`). -/
def Json.dumps : Json → String
  | .null => "null"
  | .bool b => if b then "true" else "false"
  | .num n => toString n
  | .str s => "\"" ++ s ++ "\""
  | .arr xs => "[" ++ Json.dumpsArr xs ++ "]"
  | .obj kvs => "\x7b" ++ Json.dumpsObj kvs ++ "\x7d"

def Json.dumpsArr : List Json → String
  | [] => ""
  | [x] => Json.dumps x
  | x :: y :: xs => Json.dumps x ++ ", " ++ Json.dumpsArr (y :: xs)

def Json.dumpsObj : List (String × Json) → String
  | [] => ""
  | [(k, v)] => "\"" ++ k ++ "\": " ++ Json.dumps v
  | (k, v) :: p :: kvs => "\"" ++ k ++ "\": " ++ Json.dumps v ++ ", " ++ Json.dumpsObj (p :: kvs)

end

/-- `provider.py` dataclass `ToolDefinition`. -/
structure ToolDefinition where
  name : String
  description : String
  input_schema : Json
deriving Repr

/-- `provider.py` dataclass `ToolCall`. -/
structure ToolCall where
  id : String
  name : String
  arguments : Json
deriving Repr

/-- `provider.py` dataclass `ToolResult`. -/
structure ToolResult where
  tool_call_id : String
  content : String
  is_error : Bool := false
deriving Repr, DecidableEq

/-- `provider.py` dataclass `StreamEvent`: a tagged union with type
"text" | "tool_call" | "done".  The engine only acts on events whose tag
matches AND whose payload field is truthy/non-None, which the sum type
encodes directly. -/
inductive StreamEvent where
  | text (s : String) : StreamEvent
  | toolCall (tc : ToolCall) : StreamEvent
  | done (stopReason : String) : StreamEvent
deriving Repr

/-- `executor.py` constant `BUILTIN_TOOLS`. -/
def builtinTools : List ToolDefinition :=
  [ { name := "write_file"
    , description := "Write content to a file. Creates parent directories if needed."
    , input_schema := .obj
        [ ("type", .str "object")
        , ("properties", .obj
            [ ("path", .obj [("type", .str "string"), ("description", .str "File path (relative to working directory)")])
            , ("content", .obj [("type", .str "string"), ("description", .str "Content to write")]) ])
        , ("required", .arr [.str "path", .str "content"]) ] }
  , { name := "read_file"
    , description := "Read the contents of a file."
    , input_schema := .obj
        [ ("type", .str "object")
        , ("properties", .obj
            [ ("path", .obj [("type", .str "string"), ("description", .str "File path (relative to working directory)")]) ])
        , ("required", .arr [.str "path"]) ] }
  , { name := "list_directory"
    , description := "List files and subdirectories in a directory."
    , input_schema := .obj
        [ ("type", .str "object")
        , ("properties", .obj
            [ ("path", .obj [("type", .str "string"), ("description", .str "Directory path (relative to working directory, default '.')")]) ]) ] }
  , { name := "fetch_url"
    , description := "Fetch content from a URL. Returns the response body as text."
    , input_schema := .obj
        [ ("type", .str "object")
        , ("properties", .obj
            [ ("url", .obj [("type", .str "string"), ("description", .str "The URL to fetch")]) ])
        , ("required", .arr [.str "url"]) ] }
  , { name := "run_command"
    , description := "Run a shell command and return its output. The command runs in the agent's working directory. Use for running scripts, git commands, system utilities, etc. Timeout is 60 seconds."
    , input_schema := .obj
        [ ("type", .str "object")
        , ("properties", .obj
            [ ("command", .obj [("type", .str "string"), ("description", .str "The shell command to execute")]) ])
        , ("required", .arr [.str "command"]) ] }
  ]

/-- `_execute_with_mcp`: `builtin_names = {t.name for t in BUILTIN_TOOLS}`. -/
def builtinNames : List String := builtinTools.map ToolDefinition.name

/-- Result of `subprocess.run(..., capture_output=True, text=True)`. -/
structure CompletedProcess where
  stdout : String
  stderr : String
  returncode : Int
deriving Repr, DecidableEq

/-- Outcome of the `subprocess.run` call in the `run_command` branch:
it either completes (possibly with non-zero exit), raises
`TimeoutExpired` after 60 seconds, or raises some other `OSError`-like
exception; `msg` is the exception's `str()`. -/
inductive ShellOutcome where
  | completed (r : CompletedProcess) : ShellOutcome
  | timedOut (msg : String) : ShellOutcome
  | failed (msg : String) : ShellOutcome
deriving Repr, DecidableEq

/-- Outcome of a side-effecting Python primitive: a value, or an
exception whose `str()` is `msg`. -/
inductive FxResult (α : Type) where
  | ok (a : α) : FxResult α
  | raises (msg : String) : FxResult α
deriving Repr, DecidableEq

/-- Oracle for the side-effecting primitives used by
`_execute_builtin_tool`.  `resolve` is `(cwd / p).resolve()` rendered to
a string; the others are `write_text` / `read_text` / `iterdir` /
`urlopen().read().decode()` / `subprocess.run`. -/
structure Effects where
  resolve : String → String
  writeText : String → String → FxResult Unit
  readText : String → FxResult String
  listDir : String → FxResult (List String)
  fetchUrl : String → FxResult String
  runShell : String → ShellOutcome

/-- Dictionary access `arguments[key]` — raises `KeyError` when absent. -/
def getArg (args : List (String × Json)) (key : String) : FxResult Json :=
  match args.lookup key with
  | some v => .ok v
  | none => .raises ("KeyError: " ++ key)

/-- Coercion of a JSON argument to the string the Python code passes to
path / subprocess APIs; a non-string raises a `TypeError`-like error. -/
def asStr (j : Json) : FxResult String :=
  match j with
  | .str s => .ok s
  | _ => .raises "TypeError: expected str"

/-- The `run_command` result construction of `_execute_builtin_tool`
(lines 118-123): stderr and a non-zero exit code are appended to stdout,
`output or "(no output)"` supplies the fallback, and `is_error` is
`returncode != 0`. -/
def runCommandResult (r : CompletedProcess) : ToolResult :=
  let output := r.stdout
  let output := if r.stderr ≠ "" then output ++ "\n[stderr]\n" ++ r.stderr else output
  let output := if r.returncode ≠ 0 then output ++ "\n[exit code: " ++ toString r.returncode ++ "]" else output
  { tool_call_id := ""
  , content := if output = "" then "(no output)" else output
  , is_error := r.returncode ≠ 0 }

/-- `_execute_builtin_tool(name, arguments, cwd, command_cwd)`:
dispatch on the tool name; every exception inside the `try` is caught
and converted into an `is_error=True` result carrying the exception
message; an unknown name yields the "Unknown tool" error result. -/
def executeBuiltinTool (name : String) (args : List (String × Json)) (fx : Effects) : ToolResult :=
  if name = "write_file" then
    match getArg args "path" with
    | .raises e => ⟨"", e, true⟩
    | .ok pj =>
      match asStr pj with
      | .raises e => ⟨"", e, true⟩
      | .ok p =>
        match getArg args "content" with
        | .raises e => ⟨"", e, true⟩
        | .ok cj =>
          match asStr cj with
          | .raises e => ⟨"", e, true⟩
          | .ok c =>
            let target := fx.resolve p
            match fx.writeText target c with
            | .raises e => ⟨"", e, true⟩
            | .ok _ => ⟨"", "Wrote " ++ target, false⟩
  else if name = "read_file" then
    match getArg args "path" with
    | .raises e => ⟨"", e, true⟩
    | .ok pj =>
      match asStr pj with
      | .raises e => ⟨"", e, true⟩
      | .ok p =>
        match fx.readText (fx.resolve p) with
        | .raises e => ⟨"", e, true⟩
        | .ok text => ⟨"", text, false⟩
  else if name = "list_directory" then
    match asStr ((args.lookup "path").getD (.str ".")) with
    | .raises e => ⟨"", e, true⟩
    | .ok p =>
      match fx.listDir (fx.resolve p) with
      | .raises e => ⟨"", e, true⟩
      | .ok entries => ⟨"", String.intercalate "\n" (entries.mergeSort (fun a b => decide (a ≤ b))), false⟩
  else if name = "fetch_url" then
    match getArg args "url" with
    | .raises e => ⟨"", e, true⟩
    | .ok uj =>
      match asStr uj with
      | .raises e => ⟨"", e, true⟩
      | .ok u =>
        match fx.fetchUrl u with
        | .raises e => ⟨"", e, true⟩
        | .ok body => ⟨"", body, false⟩
  else if name = "run_command" then
    match getArg args "command" with
    | .raises e => ⟨"", e, true⟩
    | .ok cj =>
      match asStr cj with
      | .raises e => ⟨"", e, true⟩
      | .ok cmd =>
        match fx.runShell cmd with
        | .completed r => runCommandResult r
        | .timedOut e => ⟨"", e, true⟩
        | .failed e => ⟨"", e, true⟩
  else
    ⟨"", "Unknown tool: " ++ name, true⟩

/-! ## MCP client (`src/telos/mcp_client.py`) -/

/-- A content block of an MCP tool-call response; only blocks with a
`text` attribute contribute to the extracted content. -/
inductive McpBlock where
  | text (s : String) : McpBlock
  | other : McpBlock
deriving Repr, DecidableEq

/-- Shape of the value returned by `session.call_tool`. -/
structure McpCallResult where
  isError : Bool
  content : List McpBlock
deriving Repr, DecidableEq

/-- `McpContext` dataclass: sessions are identified by the index of the
server they came from; their behaviour is an oracle parameter at call
sites. -/
structure McpCtx where
  tools : List ToolDefinition
  toolToSession : List (String × Nat)

/-- Python dict lookup over an assignment trace: the LAST assignment to
a key wins (dict entries are overwritten in place). -/
def dictGet {α : Type} : List (String × α) → String → Option α
  | [], _ => none
  | (k, v) :: rest, key =>
    match dictGet rest key with
    | some r => some r
    | none => if k = key then some v else none

/-- `McpContext.call_tool`: look the name up in `_tool_to_session`;
`None` gives the "Unknown tool" error result, otherwise the session is
invoked and the text blocks of its response are joined with newlines. -/
def mcpCallTool (ctx : McpCtx) (sessions : Nat → String → Json → McpCallResult)
    (name : String) (args : Json) : ToolResult :=
  match dictGet ctx.toolToSession name with
  | none => ⟨"", "Unknown tool: " ++ name, true⟩
  | some sid =>
    let result := sessions sid name args
    let parts := result.content.filterMap (fun b => match b with
      | .text s => some s
      | .other => none)
    ⟨"", String.intercalate "\n" parts, result.isError⟩

/-- One entry of the `mcpServers` mapping in an mcp.json declaration.
`serverType` embeds the optional `type` field (`server_config.get("type", ...)`). -/
structure ServerConfig where
  name : String
  url : String
  serverType : Option String
deriving Repr, DecidableEq

/-- The two wire transports of `connect_mcp_servers`. -/
inductive TransportKind where
  | sse : TransportKind
  | streamableHttp : TransportKind
deriving Repr, DecidableEq

/-- Transport selection in `connect_mcp_servers`:
`transport_type = server_config.get("type", "http")`, then
`if transport_type == "sse"` picks the SSE connector, everything else
(including the absent-type default "http") the streamable-HTTP one. -/
def chooseTransport (c : ServerConfig) : TransportKind :=
  let transportType := c.serverType.getD "http"
  if transportType = "sse" then .sse else .streamableHttp

/-- Observable outcome of `connect_mcp_servers`: which connector each
server got, the aggregated tool list, and the name-to-session routing
table (assignment trace, read through `dictGet`). -/
structure McpConnectResult where
  transports : List TransportKind
  tools : List ToolDefinition
  toolToSession : List (String × Nat)

/-- `connect_mcp_servers`: iterate the declared servers in order, pick
a connector per server, list each server's tools, append them to the
aggregate list, and record `tool_to_session[tool.name] = session`.
Network sessions are abstracted by `listTools`, mapping a server index
to the catalog its session reports. -/
def connectMcpServers (servers : List ServerConfig)
    (listTools : Nat → List ToolDefinition) : McpConnectResult :=
  { transports := servers.map chooseTransport
  , tools := (List.range servers.length).flatMap (fun i => listTools i)
  , toolToSession :=
      (List.range servers.length).flatMap (fun i => (listTools i).map (fun t => (t.name, i))) }

/-! ## Ollama compatibility backend (`src/telos/provider.py`) -/

/-- Python truthiness of an optional string: `None` and `""` are falsy. -/
def optTruthy (o : Option String) : Bool := !(o.getD "").isEmpty

/-- The `function` part of a streamed tool-call delta. -/
structure FnDelta where
  name : Option String
  arguments : Option String
deriving Repr, DecidableEq

/-- One element of `delta.tool_calls` in a streamed chunk. -/
structure ToolCallDelta where
  index : Nat
  id : Option String
  fn : Option FnDelta
deriving Repr, DecidableEq

/-- `chunk.choices[0].delta` plus `finish_reason`; a chunk with no
choices is skipped by the loop. -/
structure ChunkChoice where
  content : Option String
  toolCalls : List ToolCallDelta
  finishReason : Option String
deriving Repr, DecidableEq

/-- A streamed chunk. -/
structure Chunk where
  choices : List ChunkChoice
deriving Repr, DecidableEq

/-- One entry of `tool_calls_accum`. -/
structure AccumEntry where
  id : String
  name : String
  arguments : String
deriving Repr, DecidableEq

/-- The three conditional updates applied to the accumulator entry at
`tc_delta.index`: overwrite `id` when the delta's id is truthy,
overwrite `name` when `function.name` is truthy, append to `arguments`
when `function.arguments` is truthy. -/
def deltaUpdate (d : ToolCallDelta) (e : AccumEntry) : AccumEntry :=
  let e := if optTruthy d.id then { e with id := d.id.getD "" } else e
  match d.fn with
  | none => e
  | some f =>
    let e := if optTruthy f.name then { e with name := f.name.getD "" } else e
    if optTruthy f.arguments then { e with arguments := e.arguments ++ f.arguments.getD "" } else e

/-- Processing of one `tc_delta`: insert a fresh entry for an unseen
index (`{"id": tc_delta.id or "", "name": "", "arguments": ""}`, in
insertion order, as Python dicts preserve), then apply the updates. -/
def applyDelta (acc : List (Nat × AccumEntry)) (d : ToolCallDelta) : List (Nat × AccumEntry) :=
  let acc2 : List (Nat × AccumEntry) :=
    match acc.lookup d.index with
    | some _ => acc
    | none => acc ++ [(d.index, AccumEntry.mk (d.id.getD "") "" "")]
  acc2.map (fun p => if p.1 = d.index then (p.1, deltaUpdate d p.2) else p)

/-- State threaded through the chunk loop of
`OllamaProvider.stream_completion`: texts yielded so far, the tool-call
accumulator, and the current stop reason (initially "stop"). -/
def processChunk (st : List String × List (Nat × AccumEntry) × String) (c : Chunk) :
    List String × List (Nat × AccumEntry) × String :=
  match c.choices with
  | [] => st
  | ch :: _ =>
    let txts := if optTruthy ch.content then st.1 ++ [ch.content.getD ""] else st.1
    let acc := ch.toolCalls.foldl applyDelta st.2.1
    let stop := if optTruthy ch.finishReason then ch.finishReason.getD "" else st.2.2
    (txts, acc, stop)

/-- Finalisation of one accumulator entry after the chunk stream ends:
`json.loads(tc_data["arguments"]) if tc_data["arguments"] else {}`, with
`JSONDecodeError` caught and replaced by `{}`.  `parse` abstracts
`json.loads`, returning `none` exactly when it would raise. -/
def finalizeToolCall (parse : String → Option Json) (e : AccumEntry) : ToolCall :=
  { id := e.id
  , name := e.name
  , arguments :=
      if e.arguments = "" then Json.obj []
      else (parse e.arguments).getD (Json.obj []) }

/-- `OllamaProvider.stream_completion` event sequence: the text events
yielded during chunk iteration, then one tool_call event per
accumulated entry (insertion order), then the terminal done event. -/
def ollamaStreamCompletion (parse : String → Option Json) (chunks : List Chunk) :
    List StreamEvent :=
  let st := chunks.foldl processChunk ([], [], "stop")
  st.1.map StreamEvent.text
    ++ st.2.1.map (fun p => StreamEvent.toolCall (finalizeToolCall parse p.2))
    ++ [StreamEvent.done st.2.2]

/-! ## Message conversion (`OllamaProvider._convert_messages`) -/

/-- Content of a structured conversation turn block (Anthropic format):
text, `tool_use`, or `tool_result`. -/
inductive Block where
  | textB (s : String) : Block
  | toolUse (id name : String) (input : Json) : Block
  | toolResult (toolUseId : String) (content : String) (isError : Bool) : Block
deriving Repr

/-- A turn's content: a plain string or a list of blocks
(`isinstance(msg.get("content"), list)`). -/
inductive TurnContent where
  | text (s : String) : TurnContent
  | blocks (bs : List Block) : TurnContent
deriving Repr

/-- One conversation turn. -/
structure Turn where
  role : String
  content : TurnContent
deriving Repr

/-- One element of an OpenAI-format `tool_calls` list:
`{"id", "type": "function", "function": {"name", "arguments"}}`. -/
structure OaiToolCall where
  id : String
  fnName : String
  fnArguments : String
deriving Repr, DecidableEq

/-- An OpenAI-format message produced by `_convert_messages`. -/
inductive OaiMsg where
  | system (content : String) : OaiMsg
  | assistant (content : Option String) (toolCalls : List OaiToolCall) : OaiMsg
  | tool (toolCallId : String) (content : String) : OaiMsg
  | passthrough (m : Turn) : OaiMsg
deriving Repr

/-- Conversion of one Anthropic-format message: an assistant turn with
block content flattens its `tool_use` blocks into a `tool_calls` list
(text overwritten by the last text block, `text or None` as content); a
user turn with block content becomes one `tool`-role message per
`tool_result` block; anything else passes through unchanged. -/
def convertOne (msg : Turn) : List OaiMsg :=
  match msg.role, msg.content with
  | "assistant", .blocks bs =>
    let toolCalls := bs.filterMap (fun b => match b with
      | .toolUse i n inp => some (OaiToolCall.mk i n (Json.dumps inp))
      | _ => none)
    let text := bs.foldl (fun t b => match b with | .textB s => s | _ => t) ""
    [OaiMsg.assistant (if text = "" then none else some text) toolCalls]
  | "user", .blocks bs =>
    bs.filterMap (fun b => match b with
      | .toolResult tid c _ => some (OaiMsg.tool tid c)
      | _ => none)
  | _, _ => [OaiMsg.passthrough msg]

/-- `OllamaProvider._convert_messages(system, messages)`. -/
def convertMessages (system : String) (msgs : List Turn) : List OaiMsg :=
  OaiMsg.system system :: msgs.flatMap convertOne

/-! ## Conversation loop (`src/telos/executor.py`) -/

/-- One invocation of `provider.stream_completion`: either the event
stream completes, or the call raises mid-stream after yielding a prefix
of events (text already written to stdout stays written). -/
inductive ProviderResponse where
  | ok (events : List StreamEvent) : ProviderResponse
  | raises (events : List StreamEvent) : ProviderResponse
deriving Repr

/-- Record of one provider invocation: the system string, message
history and tool catalog passed to `stream_completion`. -/
structure ProviderCall where
  system : String
  messages : List Turn
  tools : Option (List ToolDefinition)
deriving Repr

/-- Mutable state of `_execute_simple` / `_execute_with_mcp` across
rounds, plus the log of provider invocations made so far. -/
structure EngineState where
  system : String
  messages : List Turn
  tools : Option (List ToolDefinition)
  output : String
  calls : List ProviderCall
deriving Repr

/-- Result of a run: `finished` is the normal return path (break on a
round with no tool calls, or silent exhaustion of the round range —
the constructor carries no flag distinguishing the two); `fatal` is an
exception propagating out of the loop. -/
inductive ExecResult where
  | finished (output : String) (messages : List Turn) (calls : List ProviderCall) : ExecResult
  | fatal (output : String) (calls : List ProviderCall) : ExecResult
deriving Repr

def ExecResult.callCount : ExecResult → Nat
  | .finished _ _ cs => cs.length
  | .fatal _ cs => cs.length

def ExecResult.isFinished : ExecResult → Bool
  | .finished _ _ _ => true
  | .fatal _ _ => false

/-- `text_parts` collection: `if event.type == "text" and event.text:`
keeps only the truthy (non-empty) text payloads, in order. -/
def collectTextParts (events : List StreamEvent) : List String :=
  events.filterMap (fun e => match e with
    | .text s => if s = "" then none else some s
    | _ => none)

/-- `tool_calls` collection: `elif event.type == "tool_call" and
event.tool_call:` keeps the tool calls, in order. -/
def collectToolCalls (events : List StreamEvent) : List ToolCall :=
  events.filterMap (fun e => match e with
    | .toolCall tc => some tc
    | _ => none)

/-- Assistant-turn content for a round: a single text block holding
`"".join(text_parts)` when `text_parts` is non-empty, followed by one
`tool_use` block per collected call, in order. -/
def buildAssistantContent (textParts : List String) (tcs : List ToolCall) : List Block :=
  (if textParts = [] then [] else [Block.textB (String.join textParts)])
    ++ tcs.map (fun tc => Block.toolUse tc.id tc.name tc.arguments)

/-- Tool-result turn content for a round: one `tool_result` block per
call, in order, with `tool_use_id` taken from the call's id and
content/is_error from the execution result. -/
def buildToolResults (exec : ToolCall → ToolResult) (tcs : List ToolCall) : List Block :=
  tcs.map (fun tc => Block.toolResult tc.id (exec tc).content (exec tc).is_error)

/-- Python truthiness of the `tools` variable: `None` and `[]` are
falsy (`if tools:`). -/
def toolsTruthy (tools : Option (List ToolDefinition)) : Bool :=
  match tools with
  | none => false
  | some l => !l.isEmpty

/-- Initial system string of `_execute_simple`. -/
def simpleToolSystem : String :=
  "Follow the instructions carefully and provide a helpful response. Use the available tools to read and write files as needed."

/-- Degraded system string set by the retry path of `_execute_simple`. -/
def simpleBareSystem : String :=
  "Follow the instructions carefully and provide a helpful response."

/-- System string of `_execute_with_mcp`. -/
def mcpSystem : String :=
  "Follow the instructions carefully and provide a helpful response. Use the available tools as needed."

/-- The round loop of `_execute_simple` (`for _round in range(20)`),
with `fuel` the number of remaining range elements.  The provider is an
oracle from invocation index to response; `exec` is
`_execute_builtin_tool` partially applied to cwd/command_cwd.  A raised
provider call with a truthy catalog clears the catalog, simplifies the
system string and continues; with a falsy catalog it re-raises.  A
completed round with no tool calls breaks; otherwise the assistant and
tool-result turns are appended and the loop continues. -/
def runRounds (p : Nat → ProviderResponse) (exec : ToolCall → ToolResult) :
    Nat → EngineState → ExecResult
  | 0, st => .finished st.output st.messages st.calls
  | fuel + 1, st =>
    let call : ProviderCall := ⟨st.system, st.messages, st.tools⟩
    match p st.calls.length with
    | .raises events =>
      let out := st.output ++ String.join (collectTextParts events)
      if toolsTruthy st.tools then
        runRounds p exec fuel
          { st with
              system := simpleBareSystem
              tools := none
              output := out
              calls := st.calls ++ [call] }
      else
        .fatal out (st.calls ++ [call])
    | .ok events =>
      let textParts := collectTextParts events
      let tcs := collectToolCalls events
      let out := st.output ++ String.join textParts
      if tcs.isEmpty then
        .finished out st.messages (st.calls ++ [call])
      else
        runRounds p exec fuel
          { st with
              messages := st.messages
                ++ [ Turn.mk "assistant" (.blocks (buildAssistantContent textParts tcs))
                   , Turn.mk "user" (.blocks (buildToolResults exec tcs)) ]
              output := out
              calls := st.calls ++ [call] }

/-- The round loop of `_execute_with_mcp`: identical round body, but
the provider call is NOT wrapped in try/except — an exception
propagates immediately, whatever the tool catalog — and the catalog
never changes. -/
def runRoundsMcp (p : Nat → ProviderResponse) (exec : ToolCall → ToolResult) :
    Nat → EngineState → ExecResult
  | 0, st => .finished st.output st.messages st.calls
  | fuel + 1, st =>
    let call : ProviderCall := ⟨st.system, st.messages, st.tools⟩
    match p st.calls.length with
    | .raises events =>
      .fatal (st.output ++ String.join (collectTextParts events)) (st.calls ++ [call])
    | .ok events =>
      let textParts := collectTextParts events
      let tcs := collectToolCalls events
      let out := st.output ++ String.join textParts
      if tcs.isEmpty then
        .finished out st.messages (st.calls ++ [call])
      else
        runRoundsMcp p exec fuel
          { st with
              messages := st.messages
                ++ [ Turn.mk "assistant" (.blocks (buildAssistantContent textParts tcs))
                   , Turn.mk "user" (.blocks (buildToolResults exec tcs)) ]
              output := out
              calls := st.calls ++ [call] }

/-- Tool dispatch of `_execute_with_mcp`: a name in `builtin_names`
goes to `_execute_builtin_tool`, anything else to
`mcp_ctx.call_tool`. -/
def mcpDispatch (execB execM : ToolCall → ToolResult) (tc : ToolCall) : ToolResult :=
  if tc.name ∈ builtinNames then execB tc else execM tc

/-- `_execute_simple(provider, prompt, ...)`: initial history is the
single user prompt turn, catalog is `BUILTIN_TOOLS`, and a trailing
newline is written to stdout after the loop returns normally. -/
def executeSimple (p : Nat → ProviderResponse) (exec : ToolCall → ToolResult)
    (prompt : String) : ExecResult :=
  match runRounds p exec 20
      ⟨simpleToolSystem, [Turn.mk "user" (.text prompt)], some builtinTools, "", []⟩ with
  | .finished out msgs calls => .finished (out ++ "\n") msgs calls
  | r => r

/-- `_execute_with_mcp(provider, prompt, ...)`: catalog is
`list(BUILTIN_TOOLS) + mcp_ctx.tools`, dispatch prefers built-ins. -/
def executeWithMcp (p : Nat → ProviderResponse) (execB execM : ToolCall → ToolResult)
    (prompt : String) (mcpTools : List ToolDefinition) : ExecResult :=
  match runRoundsMcp p (mcpDispatch execB execM) 20
      ⟨mcpSystem, [Turn.mk "user" (.text prompt)], some (builtinTools ++ mcpTools), "", []⟩ with
  | .finished out msgs calls => .finished (out ++ "\n") msgs calls
  | r => r

/-- A concrete `Effects` oracle whose shell always times out; used to
instantiate hypotheses at concrete inputs. -/
def fxTest : Effects :=
  { resolve := fun p => p
  , writeText := fun _ _ => .ok ()
  , readText := fun _ => .ok ""
  , listDir := fun _ => .ok []
  , fetchUrl := fun _ => .ok ""
  , runShell := fun _ => .timedOut "timed out after 60 seconds" }

/-- Correlation id of a tool-result block. -/
def Block.resultId : Block → Option String
  | .toolResult tid _ _ => some tid
  | _ => none

/-- Correlation id of a tool-invocation block. -/
def Block.invocationId : Block → Option String
  | .toolUse i _ _ => some i
  | _ => none

/-- A provider response carrying exactly one tool call; a provider that
always answers this never lets the loop break early, so the run is
stopped by the round cap alone. -/
def oneToolCallResp : ProviderResponse :=
  .ok [StreamEvent.toolCall ⟨"id", "t", Json.obj []⟩]

/-! ## Helper lemmas -/

theorem str_ne_empty_right (s t : String) (h : t ≠ "") : s ++ t ≠ "" := by
  intro hc
  apply h
  have hl := congrArg String.length hc
  simp only [String.length_append, String.length_empty] at hl
  have ht : t.length = 0 := by omega
  have hd : t.data = [] := List.length_eq_zero.mp ht
  exact String.ext hd

/-! ## Claims -/

/-- C6: dispatching a tool name outside the built-in catalog (built-in
dispatch) or outside the external routing table (MCP dispatch) returns a
`ToolResult` with `is_error=true` whose content contains "Unknown tool";
both dispatch functions are total, so they never raise. -/
theorem c6_unknown_tool_error (name : String) (hname : name ∉ builtinNames) :
    (∀ (args : List (String × Json)) (fx : Effects),
        (executeBuiltinTool name args fx).is_error = true ∧
        ∃ a b, (executeBuiltinTool name args fx).content = a ++ "Unknown tool" ++ b)
    ∧ (∀ (ctx : McpCtx) (sessions : Nat → String → Json → McpCallResult) (args : Json),
        dictGet ctx.toolToSession name = none →
        (mcpCallTool ctx sessions name args).is_error = true ∧
        ∃ a b, (mcpCallTool ctx sessions name args).content = a ++ "Unknown tool" ++ b) := by
  simp only [builtinNames, builtinTools, List.map, List.mem_cons, List.not_mem_nil, or_false,
    not_or] at hname
  obtain ⟨h1, h2, h3, h4, h5⟩ := hname
  constructor
  · intro args fx
    have hres : executeBuiltinTool name args fx = ⟨"", "Unknown tool: " ++ name, true⟩ := by
      simp [executeBuiltinTool, h1, h2, h3, h4, h5]
    refine ⟨by simp [hres], "", ": " ++ name, ?_⟩
    rw [hres]
    show "Unknown tool: " ++ name = "" ++ "Unknown tool" ++ (": " ++ name)
    rw [String.empty_append, ← String.append_assoc,
      show "Unknown tool" ++ ": " = "Unknown tool: " from by decide]
  · intro ctx sessions args hlook
    have hres : mcpCallTool ctx sessions name args = ⟨"", "Unknown tool: " ++ name, true⟩ := by
      simp [mcpCallTool, hlook]
    refine ⟨by simp [hres], "", ": " ++ name, ?_⟩
    rw [hres]
    show "Unknown tool: " ++ name = "" ++ "Unknown tool" ++ (": " ++ name)
    rw [String.empty_append, ← String.append_assoc,
      show "Unknown tool" ++ ": " = "Unknown tool: " from by decide]

theorem c6_unknown_tool_error_witness :
    ((executeBuiltinTool "frobnicate" [] fxTest).is_error = true ∧
      ∃ a b, (executeBuiltinTool "frobnicate" [] fxTest).content = a ++ "Unknown tool" ++ b)
    ∧ ((mcpCallTool ⟨[], []⟩ (fun _ _ _ => ⟨false, []⟩) "frobnicate" Json.null).is_error = true ∧
      ∃ a b, (mcpCallTool ⟨[], []⟩ (fun _ _ _ => ⟨false, []⟩) "frobnicate" Json.null).content
        = a ++ "Unknown tool" ++ b) := by
  have h := c6_unknown_tool_error "frobnicate" (by decide)
  exact ⟨h.1 [] fxTest, h.2 ⟨[], []⟩ (fun _ _ _ => ⟨false, []⟩) Json.null rfl⟩

/-- C7: a `run_command` invocation whose process exits non-zero yields
`is_error=true` with the exit code embedded in the content; stderr
output is embedded in the content even on success; and a timeout is
folded into an error `ToolResult` instead of propagating as an
exception. -/
theorem c7_run_command_diagnostics :
    (∀ r : CompletedProcess, r.returncode ≠ 0 →
        (runCommandResult r).is_error = true ∧
        ∃ a b, (runCommandResult r).content = a ++ toString r.returncode ++ b)
    ∧ (∀ r : CompletedProcess, r.stderr ≠ "" →
        ∃ a b, (runCommandResult r).content = a ++ r.stderr ++ b)
    ∧ (∀ (fx : Effects) (cmd msg : String), fx.runShell cmd = ShellOutcome.timedOut msg →
        executeBuiltinTool "run_command" [("command", Json.str cmd)] fx
          = ToolResult.mk "" msg true) := by
  refine ⟨?_, ?_, ?_⟩
  · intro r hrc
    constructor
    · simp [runCommandResult, hrc]
    · refine ⟨(if r.stderr ≠ "" then r.stdout ++ "\n[stderr]\n" ++ r.stderr else r.stdout)
        ++ "\n[exit code: ", "]", ?_⟩
      simp only [runCommandResult, hrc, if_true, ne_eq, not_false_eq_true]
      rw [if_neg]
      exact str_ne_empty_right _ "]" (by decide)
  · intro r hs
    by_cases hrc : r.returncode = 0
    · refine ⟨r.stdout ++ "\n[stderr]\n", "", ?_⟩
      simp only [runCommandResult, hs, hrc, if_true, ne_eq, not_false_eq_true,
        not_true_eq_false, if_false]
      rw [if_neg (str_ne_empty_right _ _ hs), String.append_empty]
    · refine ⟨r.stdout ++ "\n[stderr]\n", "\n[exit code: " ++ toString r.returncode ++ "]", ?_⟩
      simp only [runCommandResult, hs, hrc, ne_eq, not_false_eq_true, if_true,
        not_true_eq_false, if_false]
      rw [if_neg (str_ne_empty_right _ "]" (by decide))]
      simp [String.append_assoc]
  · intro fx cmd msg hsh
    simp [executeBuiltinTool, getArg, asStr, hsh]

theorem c7_run_command_diagnostics_witness :
    ((runCommandResult ⟨"", "", 2⟩).is_error = true ∧
      ∃ a b, (runCommandResult ⟨"", "", 2⟩).content = a ++ toString (2 : Int) ++ b)
    ∧ (∃ a b, (runCommandResult ⟨"ok", "warning", 0⟩).content = a ++ "warning" ++ b)
    ∧ executeBuiltinTool "run_command" [("command", Json.str "sleep 100")] fxTest
        = ToolResult.mk "" "timed out after 60 seconds" true := by
  refine ⟨c7_run_command_diagnostics.1 ⟨"", "", 2⟩ (by decide), ?_, ?_⟩
  · exact c7_run_command_diagnostics.2.1 ⟨"ok", "warning", 0⟩ (by decide)
  · exact c7_run_command_diagnostics.2.2 fxTest "sleep 100" "timed out after 60 seconds" rfl

/-- C3: every completed Ollama stream is zero or more text events, then
zero or more tool_call events, then exactly one terminal done event; the
tool_call events are exactly the finalisations of the index-keyed
accumulator entries, emitted as a batch after the chunk stream ends. -/
theorem c3_ollama_event_shape (parse : String → Option Json) (chunks : List Chunk) :
    ∃ (txts : List String) (tcs : List ToolCall) (stop : String),
      ollamaStreamCompletion parse chunks
        = txts.map StreamEvent.text ++ tcs.map StreamEvent.toolCall ++ [StreamEvent.done stop]
      ∧ tcs = ((chunks.foldl processChunk ([], [], "stop")).2.1).map
          (fun p => finalizeToolCall parse p.2) := by
  refine ⟨(chunks.foldl processChunk ([], [], "stop")).1,
    ((chunks.foldl processChunk ([], [], "stop")).2.1).map (fun p => finalizeToolCall parse p.2),
    (chunks.foldl processChunk ([], [], "stop")).2.2, ?_, rfl⟩
  simp [ollamaStreamCompletion, List.map_map, Function.comp]

/-- C10: an accumulated tool call whose argument text is empty or fails
to parse as JSON is still emitted as a tool_call event, with the empty
object as its arguments; `stream_completion` never raises on malformed
argument deltas (the embedding is total, and the JSONDecodeError branch
is replaced by the empty object). -/
theorem c10_malformed_arguments (parse : String → Option Json) (chunks : List Chunk)
    (p : Nat × AccumEntry)
    (hmem : p ∈ (chunks.foldl processChunk ([], [], "stop")).2.1)
    (hbad : p.2.arguments = "" ∨ parse p.2.arguments = none) :
    StreamEvent.toolCall ⟨p.2.id, p.2.name, Json.obj []⟩ ∈ ollamaStreamCompletion parse chunks := by
  have hfin : finalizeToolCall parse p.2 = ⟨p.2.id, p.2.name, Json.obj []⟩ := by
    by_cases he : p.2.arguments = ""
    · simp [finalizeToolCall, he]
    · rcases hbad with hb | hb
      · exact absurd hb he
      · simp [finalizeToolCall, he, hb]
  simp only [ollamaStreamCompletion]
  apply List.mem_append_left
  apply List.mem_append_right
  rw [← hfin]
  exact List.mem_map_of_mem _ hmem

theorem c10_malformed_arguments_witness :
    StreamEvent.toolCall ⟨"call1", "f", Json.obj []⟩
      ∈ ollamaStreamCompletion (fun _ => none)
          [Chunk.mk [ChunkChoice.mk none
            [ToolCallDelta.mk 0 (some "call1") (some (FnDelta.mk (some "f") (some "not json")))]
            none]] := by
  exact c10_malformed_arguments (fun _ => none) _ (0, ⟨"call1", "f", "not json"⟩)
    (by decide) (Or.inr rfl)

/-- C4: the compatibility-backend translator maps a native assistant
turn holding one tool-invocation block plus the corresponding
tool-result turn to an assistant message carrying the function-call
object and a tool-role message whose `tool_call_id` equals the
invocation block's id. -/
theorem c4_convert_messages_roundtrip (sys id name : String) (input : Json)
    (rc : String) (re : Bool) :
    convertMessages sys
      [ Turn.mk "assistant" (.blocks [Block.toolUse id name input])
      , Turn.mk "user" (.blocks [Block.toolResult id rc re]) ]
    = [ OaiMsg.system sys
      , OaiMsg.assistant none [OaiToolCall.mk id name (Json.dumps input)]
      , OaiMsg.tool id rc ] := by
  simp [convertMessages, convertOne]

/-- C9: `connect_mcp_servers` selects the SSE connector exactly for
servers tagged "sse" and the streamable-HTTP connector for untagged
servers; the aggregated tool list is the concatenation of every
server's catalog (no name loss), and in the two-server scenario with
disjoint names each name routes to its own server. -/
theorem c9_transport_and_aggregation :
    (∀ c : ServerConfig, c.serverType = some "sse" → chooseTransport c = .sse)
    ∧ (∀ c : ServerConfig, c.serverType = none → chooseTransport c = .streamableHttp)
    ∧ (∀ (servers : List ServerConfig) (listTools : Nat → List ToolDefinition)
         (i : Nat) (t : ToolDefinition), i < servers.length → t ∈ listTools i →
         t ∈ (connectMcpServers servers listTools).tools)
    ∧ (∀ (c1 c2 : ServerConfig) (t1 t2 : ToolDefinition) (lt : Nat → List ToolDefinition),
         c1.serverType = some "sse" → c2.serverType = none →
         lt 0 = [t1] → lt 1 = [t2] → t1.name ≠ t2.name →
         (connectMcpServers [c1, c2] lt).transports
             = [TransportKind.sse, TransportKind.streamableHttp]
           ∧ (connectMcpServers [c1, c2] lt).tools = [t1, t2]
           ∧ dictGet (connectMcpServers [c1, c2] lt).toolToSession t1.name = some 0
           ∧ dictGet (connectMcpServers [c1, c2] lt).toolToSession t2.name = some 1) := by
  refine ⟨?_, ?_, ?_, ?_⟩
  · intro c h; simp [chooseTransport, h]
  · intro c h; simp [chooseTransport, h]
  · intro servers listTools i t hi ht
    simp only [connectMcpServers, List.mem_flatMap]
    exact ⟨i, List.mem_range.mpr hi, ht⟩
  · intro c1 c2 t1 t2 lt h1 h2 hl0 hl1 hne
    refine ⟨?_, ?_, ?_, ?_⟩
    · simp [connectMcpServers, chooseTransport, h1, h2]
    · simp [connectMcpServers, List.range_succ, hl0, hl1]
    · simp [connectMcpServers, List.range_succ, hl0, hl1, dictGet, Ne.symm hne]
    · simp [connectMcpServers, List.range_succ, hl0, hl1, dictGet]

theorem c9_transport_and_aggregation_witness :
    chooseTransport ⟨"s1", "http://a", some "sse"⟩ = TransportKind.sse
    ∧ chooseTransport ⟨"s2", "http://b", none⟩ = TransportKind.streamableHttp
    ∧ ToolDefinition.mk "alpha" "" Json.null
        ∈ (connectMcpServers [⟨"s1", "http://a", some "sse"⟩, ⟨"s2", "http://b", none⟩]
            (fun i => if i = 0 then [ToolDefinition.mk "alpha" "" Json.null]
                      else [ToolDefinition.mk "beta" "" Json.null])).tools
    ∧ (connectMcpServers [⟨"s1", "http://a", some "sse"⟩, ⟨"s2", "http://b", none⟩]
            (fun i => if i = 0 then [ToolDefinition.mk "alpha" "" Json.null]
                      else [ToolDefinition.mk "beta" "" Json.null])).transports
        = [TransportKind.sse, TransportKind.streamableHttp]
    ∧ dictGet (connectMcpServers [⟨"s1", "http://a", some "sse"⟩, ⟨"s2", "http://b", none⟩]
            (fun i => if i = 0 then [ToolDefinition.mk "alpha" "" Json.null]
                      else [ToolDefinition.mk "beta" "" Json.null])).toolToSession "alpha"
        = some 0 := by
  have h4 := c9_transport_and_aggregation.2.2.2
    ⟨"s1", "http://a", some "sse"⟩ ⟨"s2", "http://b", none⟩
    (ToolDefinition.mk "alpha" "" Json.null) (ToolDefinition.mk "beta" "" Json.null)
    (fun i => if i = 0 then [ToolDefinition.mk "alpha" "" Json.null]
              else [ToolDefinition.mk "beta" "" Json.null])
    rfl rfl rfl rfl (by decide)
  refine ⟨c9_transport_and_aggregation.1 _ rfl, c9_transport_and_aggregation.2.1 _ rfl, ?_, h4.1, h4.2.2.1⟩
  exact c9_transport_and_aggregation.2.2.1 _ _ 0 _ (by decide) (by simp)

/-- C8: a round whose provider response contains zero tool_call events
is terminal — for ANY engine state (any catalog, any history) the loop
appends no turns, makes exactly one more provider call, and returns
the accumulated text; instantiated on `_execute_simple`, the run
returns after exactly one round with the history still the single
initial user turn. -/
theorem c8_zero_toolcalls_terminal :
    (∀ (p : Nat → ProviderResponse) (exec : ToolCall → ToolResult) (fuel : Nat)
       (st : EngineState) (events : List StreamEvent),
       p st.calls.length = ProviderResponse.ok events → collectToolCalls events = [] →
       runRounds p exec (fuel + 1) st
         = .finished (st.output ++ String.join (collectTextParts events)) st.messages
             (st.calls ++ [⟨st.system, st.messages, st.tools⟩]))
    ∧ (∀ (p : Nat → ProviderResponse) (exec : ToolCall → ToolResult) (prompt : String)
         (events : List StreamEvent),
       p 0 = ProviderResponse.ok events → collectToolCalls events = [] →
       executeSimple p exec prompt
         = .finished (String.join (collectTextParts events) ++ "\n")
             [Turn.mk "user" (.text prompt)]
             [⟨simpleToolSystem, [Turn.mk "user" (.text prompt)], some builtinTools⟩]) := by
  have hgen : ∀ (p : Nat → ProviderResponse) (exec : ToolCall → ToolResult) (fuel : Nat)
      (st : EngineState) (events : List StreamEvent),
      p st.calls.length = ProviderResponse.ok events → collectToolCalls events = [] →
      runRounds p exec (fuel + 1) st
        = .finished (st.output ++ String.join (collectTextParts events)) st.messages
            (st.calls ++ [⟨st.system, st.messages, st.tools⟩]) := by
    intro p exec fuel st events hp hz
    simp [runRounds, hp, hz]
  refine ⟨hgen, ?_⟩
  intro p exec prompt events hp hz
  have h20 : (20 : Nat) = 19 + 1 := rfl
  simp only [executeSimple, h20]
  rw [hgen p exec 19 ⟨simpleToolSystem, [Turn.mk "user" (.text prompt)], some builtinTools, "", []⟩
    events hp hz]
  simp [String.empty_append]

theorem c8_zero_toolcalls_terminal_witness :
    executeSimple (fun _ => ProviderResponse.ok [StreamEvent.text "hello", StreamEvent.done "end_turn"])
        (fun _ => ⟨"", "", false⟩) "do it"
      = .finished ("hello" ++ "\n")
          [Turn.mk "user" (.text "do it")]
          [⟨simpleToolSystem, [Turn.mk "user" (.text "do it")], some builtinTools⟩] := by
  have h := c8_zero_toolcalls_terminal.2
    (fun _ => ProviderResponse.ok [StreamEvent.text "hello", StreamEvent.done "end_turn"])
    (fun _ => ⟨"", "", false⟩) "do it"
    [StreamEvent.text "hello", StreamEvent.done "end_turn"] rfl rfl
  simpa [collectTextParts] using h

/-- C1: in any round that collects N >= 1 tool calls, both engine
variants append exactly one assistant turn and one user turn: the
assistant turn holds one tool-invocation block per call in arrival
order, preceded by a text block exactly when text was streamed, and
the user turn holds exactly N tool-result blocks whose correlation
ids match the invocation blocks' ids in the same order. -/
theorem c1_tool_result_correlation (p : Nat → ProviderResponse) (exec : ToolCall → ToolResult)
    (fuel : Nat) (st : EngineState) (events : List StreamEvent)
    (hp : p st.calls.length = ProviderResponse.ok events)
    (hn : collectToolCalls events ≠ []) :
    (runRounds p exec (fuel + 1) st = runRounds p exec fuel
        { st with
            messages := st.messages
              ++ [ Turn.mk "assistant" (.blocks (buildAssistantContent
                     (collectTextParts events) (collectToolCalls events)))
                 , Turn.mk "user" (.blocks (buildToolResults exec (collectToolCalls events))) ]
            output := st.output ++ String.join (collectTextParts events)
            calls := st.calls ++ [⟨st.system, st.messages, st.tools⟩] }
      ∧ runRoundsMcp p exec (fuel + 1) st = runRoundsMcp p exec fuel
        { st with
            messages := st.messages
              ++ [ Turn.mk "assistant" (.blocks (buildAssistantContent
                     (collectTextParts events) (collectToolCalls events)))
                 , Turn.mk "user" (.blocks (buildToolResults exec (collectToolCalls events))) ]
            output := st.output ++ String.join (collectTextParts events)
            calls := st.calls ++ [⟨st.system, st.messages, st.tools⟩] })
    ∧ (buildToolResults exec (collectToolCalls events)).length
        = (collectToolCalls events).length
    ∧ (buildToolResults exec (collectToolCalls events)).map Block.resultId
        = (collectToolCalls events).map (fun tc => some tc.id)
    ∧ (buildAssistantContent (collectTextParts events) (collectToolCalls events)).filterMap
          Block.invocationId
        = (collectToolCalls events).map ToolCall.id
    ∧ (collectTextParts events = [] →
        buildAssistantContent (collectTextParts events) (collectToolCalls events)
          = (collectToolCalls events).map (fun tc => Block.toolUse tc.id tc.name tc.arguments))
    ∧ (collectTextParts events ≠ [] →
        buildAssistantContent (collectTextParts events) (collectToolCalls events)
          = Block.textB (String.join (collectTextParts events))
              :: (collectToolCalls events).map (fun tc => Block.toolUse tc.id tc.name tc.arguments)) := by
  have hne : (collectToolCalls events).isEmpty = false := by
    cases h : collectToolCalls events with
    | nil => exact absurd h hn
    | cons a l => rfl
  refine ⟨⟨?_, ?_⟩, ?_, ?_, ?_, ?_, ?_⟩
  · simp [runRounds, hp, hne]
  · simp [runRoundsMcp, hp, hne]
  · simp [buildToolResults]
  · simp [buildToolResults, List.map_map, Function.comp, Block.resultId]
  · have hcomp : (Block.invocationId ∘ fun tc : ToolCall => Block.toolUse tc.id tc.name tc.arguments)
        = some ∘ ToolCall.id := rfl
    by_cases ht : collectTextParts events = []
    · simp [buildAssistantContent, ht, List.filterMap_map, hcomp, List.filterMap_eq_map]
    · simp only [buildAssistantContent, if_neg ht, List.singleton_append, List.filterMap_cons,
        Block.invocationId, List.filterMap_map, hcomp, List.filterMap_eq_map]
  · intro ht; simp [buildAssistantContent, ht]
  · intro ht; simp [buildAssistantContent, ht]

theorem c1_tool_result_correlation_witness :
    ((buildToolResults (fun _ => ⟨"", "ok", false⟩)
        (collectToolCalls [StreamEvent.toolCall ⟨"idA", "read_file", Json.obj []⟩,
          StreamEvent.toolCall ⟨"idB", "list_directory", Json.obj []⟩])).map Block.resultId
      = (collectToolCalls [StreamEvent.toolCall ⟨"idA", "read_file", Json.obj []⟩,
          StreamEvent.toolCall ⟨"idB", "list_directory", Json.obj []⟩]).map (fun tc => some tc.id))
    ∧ (buildToolResults (fun _ => ⟨"", "ok", false⟩)
        (collectToolCalls [StreamEvent.toolCall ⟨"idA", "read_file", Json.obj []⟩,
          StreamEvent.toolCall ⟨"idB", "list_directory", Json.obj []⟩])).length
      = (collectToolCalls [StreamEvent.toolCall ⟨"idA", "read_file", Json.obj []⟩,
          StreamEvent.toolCall ⟨"idB", "list_directory", Json.obj []⟩]).length := by
  have h := c1_tool_result_correlation (fun _ => ProviderResponse.ok
      [StreamEvent.toolCall ⟨"idA", "read_file", Json.obj []⟩,
        StreamEvent.toolCall ⟨"idB", "list_directory", Json.obj []⟩])
    (fun _ => ⟨"", "ok", false⟩) 0 ⟨"s", [], none, "", []⟩
    [StreamEvent.toolCall ⟨"idA", "read_file", Json.obj []⟩,
      StreamEvent.toolCall ⟨"idB", "list_directory", Json.obj []⟩]
    rfl (by simp [collectToolCalls])
  exact ⟨h.2.2.1, h.2.1⟩

theorem runRounds_callCount_le (p : Nat → ProviderResponse) (exec : ToolCall → ToolResult) :
    ∀ (fuel : Nat) (st : EngineState),
      (runRounds p exec fuel st).callCount ≤ st.calls.length + fuel := by
  intro fuel
  induction fuel with
  | zero => intro st; simp [runRounds, ExecResult.callCount]
  | succ n ih =>
    intro st
    cases hp : p st.calls.length with
    | raises events =>
      by_cases htools : toolsTruthy st.tools
      · simp only [runRounds, hp, htools, if_true]
        calc _ ≤ (st.calls ++ [ProviderCall.mk st.system st.messages st.tools]).length + n := ih _
        _ ≤ st.calls.length + (n + 1) := by simp [List.length_append]; omega
      · simp only [runRounds, hp, htools, if_false, Bool.false_eq_true]
        simp [ExecResult.callCount, List.length_append]
    | ok events =>
      by_cases hz : (collectToolCalls events).isEmpty
      · simp only [runRounds, hp, hz, if_true]
        simp [ExecResult.callCount, List.length_append]
      · simp only [runRounds, hp, hz, if_false, Bool.false_eq_true]
        calc _ ≤ (st.calls ++ [ProviderCall.mk st.system st.messages st.tools]).length + n := ih _
        _ ≤ st.calls.length + (n + 1) := by simp [List.length_append]; omega

theorem runRoundsMcp_callCount_le (p : Nat → ProviderResponse) (exec : ToolCall → ToolResult) :
    ∀ (fuel : Nat) (st : EngineState),
      (runRoundsMcp p exec fuel st).callCount ≤ st.calls.length + fuel := by
  intro fuel
  induction fuel with
  | zero => intro st; simp [runRoundsMcp, ExecResult.callCount]
  | succ n ih =>
    intro st
    cases hp : p st.calls.length with
    | raises events =>
      simp only [runRoundsMcp, hp]
      simp [ExecResult.callCount, List.length_append]
    | ok events =>
      by_cases hz : (collectToolCalls events).isEmpty
      · simp only [runRoundsMcp, hp, hz, if_true]
        simp [ExecResult.callCount, List.length_append]
      · simp only [runRoundsMcp, hp, hz, if_false, Bool.false_eq_true]
        calc _ ≤ (st.calls ++ [ProviderCall.mk st.system st.messages st.tools]).length + n := ih _
        _ ≤ st.calls.length + (n + 1) := by simp [List.length_append]; omega

theorem runRounds_ok_isFinished (p : Nat → ProviderResponse) (exec : ToolCall → ToolResult)
    (hok : ∀ n, ∃ events, p n = ProviderResponse.ok events) :
    ∀ (fuel : Nat) (st : EngineState), (runRounds p exec fuel st).isFinished = true := by
  intro fuel
  induction fuel with
  | zero => intro st; simp [runRounds, ExecResult.isFinished]
  | succ n ih =>
    intro st
    obtain ⟨events, hp⟩ := hok st.calls.length
    by_cases hz : (collectToolCalls events).isEmpty
    · simp [runRounds, hp, hz, ExecResult.isFinished]
    · simp only [runRounds, hp, hz, if_false, Bool.false_eq_true]
      exact ih _

theorem runRounds_oneToolCall (p : Nat → ProviderResponse) (exec : ToolCall → ToolResult)
    (hp : ∀ n, p n = oneToolCallResp) :
    ∀ (fuel : Nat) (st : EngineState),
      (runRounds p exec fuel st).isFinished = true
      ∧ (runRounds p exec fuel st).callCount = st.calls.length + fuel := by
  intro fuel
  induction fuel with
  | zero => intro st; simp [runRounds, ExecResult.isFinished, ExecResult.callCount]
  | succ n ih =>
    intro st
    have hz : (collectToolCalls [StreamEvent.toolCall ⟨"id", "t", Json.obj []⟩]).isEmpty = false := rfl
    have hp1 : p st.calls.length
        = ProviderResponse.ok [StreamEvent.toolCall ⟨"id", "t", Json.obj []⟩] :=
      (hp st.calls.length).trans rfl
    simp only [runRounds, hp1, hz, if_false, Bool.false_eq_true]
    refine ⟨(ih _).1, ?_⟩
    rw [(ih _).2]
    simp [List.length_append]
    omega

/-- C5: both engine variants perform at most 20 loop iterations (hence
at most 20 provider calls); a run whose provider never raises always
ends in the normal `finished` outcome — in particular a provider that
returns a tool call every round exhausts all 20 rounds and the run
still finishes normally, through the same constructor as natural
completion, with no distinguished truncation signal. -/
theorem c5_round_cap_soft :
    (∀ (p : Nat → ProviderResponse) (exec : ToolCall → ToolResult) (prompt : String),
        (executeSimple p exec prompt).callCount ≤ 20)
    ∧ (∀ (p : Nat → ProviderResponse) (execB execM : ToolCall → ToolResult) (prompt : String)
         (mcpTools : List ToolDefinition),
        (executeWithMcp p execB execM prompt mcpTools).callCount ≤ 20)
    ∧ (∀ (p : Nat → ProviderResponse) (exec : ToolCall → ToolResult) (prompt : String),
        (∀ n, ∃ events, p n = ProviderResponse.ok events) →
        (executeSimple p exec prompt).isFinished = true)
    ∧ (∀ (exec : ToolCall → ToolResult) (prompt : String),
        (executeSimple (fun _ => oneToolCallResp) exec prompt).isFinished = true
        ∧ (executeSimple (fun _ => oneToolCallResp) exec prompt).callCount = 20) := by
  have hwrap : ∀ (p : Nat → ProviderResponse) (exec : ToolCall → ToolResult) (prompt : String),
      (executeSimple p exec prompt).callCount
        = (runRounds p exec 20 ⟨simpleToolSystem, [Turn.mk "user" (.text prompt)],
            some builtinTools, "", []⟩).callCount
      ∧ (executeSimple p exec prompt).isFinished
        = (runRounds p exec 20 ⟨simpleToolSystem, [Turn.mk "user" (.text prompt)],
            some builtinTools, "", []⟩).isFinished := by
    intro p exec prompt
    simp only [executeSimple]
    cases runRounds p exec 20 ⟨simpleToolSystem, [Turn.mk "user" (.text prompt)],
        some builtinTools, "", []⟩ with
    | finished out msgs calls => exact ⟨rfl, rfl⟩
    | fatal out calls => exact ⟨rfl, rfl⟩
  have hwrapM : ∀ (p : Nat → ProviderResponse) (execB execM : ToolCall → ToolResult)
      (prompt : String) (mcpTools : List ToolDefinition),
      (executeWithMcp p execB execM prompt mcpTools).callCount
        = (runRoundsMcp p (mcpDispatch execB execM) 20 ⟨mcpSystem,
            [Turn.mk "user" (.text prompt)], some (builtinTools ++ mcpTools), "", []⟩).callCount := by
    intro p execB execM prompt mcpTools
    simp only [executeWithMcp]
    cases runRoundsMcp p (mcpDispatch execB execM) 20 ⟨mcpSystem,
        [Turn.mk "user" (.text prompt)], some (builtinTools ++ mcpTools), "", []⟩ with
    | finished out msgs calls => rfl
    | fatal out calls => rfl
  refine ⟨?_, ?_, ?_, ?_⟩
  · intro p exec prompt
    rw [(hwrap p exec prompt).1]
    simpa using runRounds_callCount_le p exec 20 _
  · intro p execB execM prompt mcpTools
    rw [hwrapM p execB execM prompt mcpTools]
    simpa using runRoundsMcp_callCount_le p (mcpDispatch execB execM) 20 _
  · intro p exec prompt hok
    rw [(hwrap p exec prompt).2]
    exact runRounds_ok_isFinished p exec hok 20 _
  · intro exec prompt
    constructor
    · rw [(hwrap (fun _ => oneToolCallResp) exec prompt).2]
      exact (runRounds_oneToolCall (fun _ => oneToolCallResp) exec (fun _ => rfl) 20 _).1
    · rw [(hwrap (fun _ => oneToolCallResp) exec prompt).1]
      simpa using (runRounds_oneToolCall (fun _ => oneToolCallResp) exec (fun _ => rfl) 20 _).2

theorem c5_round_cap_soft_witness :
    (executeSimple (fun _ => ProviderResponse.ok []) (fun _ => ⟨"", "", false⟩) "go").callCount ≤ 20
    ∧ (executeSimple (fun _ => ProviderResponse.ok []) (fun _ => ⟨"", "", false⟩) "go").isFinished
        = true
    ∧ (executeSimple (fun _ => oneToolCallResp) (fun _ => ⟨"", "", false⟩) "go").isFinished = true
    ∧ (executeSimple (fun _ => oneToolCallResp) (fun _ => ⟨"", "", false⟩) "go").callCount = 20 := by
  refine ⟨c5_round_cap_soft.1 _ _ "go", ?_, (c5_round_cap_soft.2.2.2 _ "go").1,
    (c5_round_cap_soft.2.2.2 _ "go").2⟩
  exact c5_round_cap_soft.2.2.1 _ _ "go" (fun n => ⟨[], rfl⟩)

/-- C2 counterexample: in the external-tools engine variant
(`_execute_with_mcp`) the provider call is NOT retried — with a
non-empty tool catalog (the built-ins plus no external tools) and a
provider that raises on its first call, the run propagates the failure
fatally after exactly ONE provider invocation, not two, contradicting
the claim that the degradation policy applies identically to both
engine variants. -/
theorem c2_counterexample_mcp_no_retry :
    toolsTruthy (some (builtinTools ++ [])) = true
    ∧ executeWithMcp (fun _ => ProviderResponse.raises []) (fun _ => ⟨"", "", false⟩)
        (fun _ => ⟨"", "", false⟩) "hi" []
      = ExecResult.fatal ""
          [⟨mcpSystem, [Turn.mk "user" (.text "hi")], some (builtinTools ++ [])⟩]
    ∧ (executeWithMcp (fun _ => ProviderResponse.raises []) (fun _ => ⟨"", "", false⟩)
        (fun _ => ⟨"", "", false⟩) "hi" []).callCount = 1 := by
  refine ⟨rfl, ?_, ?_⟩ <;> rfl

theorem runRounds_step_raises_truthy (p : Nat → ProviderResponse) (exec : ToolCall → ToolResult)
    (fuel : Nat) (st : EngineState) (n : Nat) (ys : List StreamEvent)
    (hn : st.calls.length = n)
    (hp : p n = ProviderResponse.raises ys)
    (ht : toolsTruthy st.tools = true) :
    runRounds p exec (fuel + 1) st = runRounds p exec fuel
      { st with
          system := simpleBareSystem
          tools := none
          output := st.output ++ String.join (collectTextParts ys)
          calls := st.calls ++ [⟨st.system, st.messages, st.tools⟩] } := by
  subst hn
  simp [runRounds, hp, ht]

theorem runRounds_step_raises_falsy (p : Nat → ProviderResponse) (exec : ToolCall → ToolResult)
    (fuel : Nat) (st : EngineState) (n : Nat) (ys : List StreamEvent)
    (hn : st.calls.length = n)
    (hp : p n = ProviderResponse.raises ys)
    (ht : toolsTruthy st.tools = false) :
    runRounds p exec (fuel + 1) st
      = .fatal (st.output ++ String.join (collectTextParts ys))
          (st.calls ++ [⟨st.system, st.messages, st.tools⟩]) := by
  subst hn
  simp [runRounds, hp, ht]

theorem runRounds_step_ok_break (p : Nat → ProviderResponse) (exec : ToolCall → ToolResult)
    (fuel : Nat) (st : EngineState) (n : Nat) (events : List StreamEvent)
    (hn : st.calls.length = n)
    (hp : p n = ProviderResponse.ok events)
    (hz : collectToolCalls events = []) :
    runRounds p exec (fuel + 1) st
      = .finished (st.output ++ String.join (collectTextParts events)) st.messages
          (st.calls ++ [⟨st.system, st.messages, st.tools⟩]) := by
  subst hn
  simp [runRounds, hp, hz]

theorem runRoundsMcp_step_raises (p : Nat → ProviderResponse) (exec : ToolCall → ToolResult)
    (fuel : Nat) (st : EngineState) (n : Nat) (ys : List StreamEvent)
    (hn : st.calls.length = n)
    (hp : p n = ProviderResponse.raises ys) :
    runRoundsMcp p exec (fuel + 1) st
      = .fatal (st.output ++ String.join (collectTextParts ys))
          (st.calls ++ [⟨st.system, st.messages, st.tools⟩]) := by
  subst hn
  simp [runRoundsMcp, hp]

/-- C2 (amended): the degradation policy holds for the built-in-only
variant (`_execute_simple`) — a provider failure with a truthy catalog
is retried once against the same message history with the catalog
cleared and the simplified system string, so the provider is invoked
twice; if the cleared-catalog retry fails too, the failure is fatal
after those two calls.  The external-tools variant
(`_execute_with_mcp`) has no retry: a provider failure propagates as
fatal after a single call, whatever the catalog.  (The retry consumes
one iteration of the 20-round range but reuses the same history.) -/
theorem c2_degradation_simple_only :
    (∀ (p : Nat → ProviderResponse) (exec : ToolCall → ToolResult) (prompt : String)
       (ys events : List StreamEvent),
       p 0 = ProviderResponse.raises ys → p 1 = ProviderResponse.ok events →
       collectToolCalls events = [] →
       executeSimple p exec prompt
         = .finished (String.join (collectTextParts ys) ++ String.join (collectTextParts events) ++ "\n")
             [Turn.mk "user" (.text prompt)]
             [ ⟨simpleToolSystem, [Turn.mk "user" (.text prompt)], some builtinTools⟩
             , ⟨simpleBareSystem, [Turn.mk "user" (.text prompt)], none⟩ ])
    ∧ (∀ (p : Nat → ProviderResponse) (exec : ToolCall → ToolResult) (prompt : String)
         (ys ys2 : List StreamEvent),
       p 0 = ProviderResponse.raises ys → p 1 = ProviderResponse.raises ys2 →
       executeSimple p exec prompt
         = .fatal (String.join (collectTextParts ys) ++ String.join (collectTextParts ys2))
             [ ⟨simpleToolSystem, [Turn.mk "user" (.text prompt)], some builtinTools⟩
             , ⟨simpleBareSystem, [Turn.mk "user" (.text prompt)], none⟩ ])
    ∧ (∀ (p : Nat → ProviderResponse) (execB execM : ToolCall → ToolResult) (prompt : String)
         (mcpTools : List ToolDefinition) (ys : List StreamEvent),
       p 0 = ProviderResponse.raises ys →
       executeWithMcp p execB execM prompt mcpTools
         = .fatal (String.join (collectTextParts ys))
             [⟨mcpSystem, [Turn.mk "user" (.text prompt)], some (builtinTools ++ mcpTools)⟩]) := by
  refine ⟨?_, ?_, ?_⟩
  · intro p exec prompt ys events h0 h1 hz
    have e1 := runRounds_step_raises_truthy p exec (18 + 1)
      ⟨simpleToolSystem, [Turn.mk "user" (.text prompt)], some builtinTools, "", []⟩ 0 ys (by rfl) h0 (by rfl)
    have e2 := runRounds_step_ok_break p exec 18
      ⟨simpleBareSystem, [Turn.mk "user" (.text prompt)], none,
        "" ++ String.join (collectTextParts ys),
        [] ++ [ProviderCall.mk simpleToolSystem [Turn.mk "user" (.text prompt)]
          (some builtinTools)]⟩ 1 events (by rfl) h1 hz
    simp only [executeSimple]
    rw [show (20 : Nat) = 18 + 1 + 1 from rfl]
    rw [e1.trans e2]
    rfl
  · intro p exec prompt ys ys2 h0 h1
    have e1 := runRounds_step_raises_truthy p exec (18 + 1)
      ⟨simpleToolSystem, [Turn.mk "user" (.text prompt)], some builtinTools, "", []⟩ 0 ys (by rfl) h0 (by rfl)
    have e2 := runRounds_step_raises_falsy p exec 18
      ⟨simpleBareSystem, [Turn.mk "user" (.text prompt)], none,
        "" ++ String.join (collectTextParts ys),
        [] ++ [ProviderCall.mk simpleToolSystem [Turn.mk "user" (.text prompt)]
          (some builtinTools)]⟩ 1 ys2 (by rfl) h1 (by rfl)
    simp only [executeSimple]
    rw [show (20 : Nat) = 18 + 1 + 1 from rfl]
    rw [e1.trans e2]
    rfl
  · intro p execB execM prompt mcpTools ys h0
    have e1 := runRoundsMcp_step_raises p (mcpDispatch execB execM) 19
      ⟨mcpSystem, [Turn.mk "user" (.text prompt)], some (builtinTools ++ mcpTools), "", []⟩ 0 ys
      (by rfl) h0
    simp only [executeWithMcp]
    rw [show (20 : Nat) = 19 + 1 from rfl]
    rw [e1]
    rfl

theorem c2_degradation_simple_only_witness :
    executeSimple
        (fun n => if n = 0 then ProviderResponse.raises []
                  else ProviderResponse.ok [StreamEvent.text "ok", StreamEvent.done "end_turn"])
        (fun _ => ⟨"", "", false⟩) "hi"
      = .finished (String.join (collectTextParts [])
            ++ String.join (collectTextParts [StreamEvent.text "ok", StreamEvent.done "end_turn"]) ++ "\n")
          [Turn.mk "user" (.text "hi")]
          [ ⟨simpleToolSystem, [Turn.mk "user" (.text "hi")], some builtinTools⟩
          , ⟨simpleBareSystem, [Turn.mk "user" (.text "hi")], none⟩ ]
    ∧ executeSimple (fun _ => ProviderResponse.raises []) (fun _ => ⟨"", "", false⟩) "hi"
      = .fatal (String.join (collectTextParts []) ++ String.join (collectTextParts []))
          [ ⟨simpleToolSystem, [Turn.mk "user" (.text "hi")], some builtinTools⟩
          , ⟨simpleBareSystem, [Turn.mk "user" (.text "hi")], none⟩ ]
    ∧ executeWithMcp (fun _ => ProviderResponse.raises [StreamEvent.text "partial"])
        (fun _ => ⟨"", "", false⟩) (fun _ => ⟨"", "", false⟩) "hi" []
      = .fatal (String.join (collectTextParts [StreamEvent.text "partial"]))
          [⟨mcpSystem, [Turn.mk "user" (.text "hi")], some (builtinTools ++ [])⟩] := by
  refine ⟨?_, ?_, ?_⟩
  · exact c2_degradation_simple_only.1
      (fun n => if n = 0 then ProviderResponse.raises []
                else ProviderResponse.ok [StreamEvent.text "ok", StreamEvent.done "end_turn"])
      (fun _ => ⟨"", "", false⟩) "hi" [] [StreamEvent.text "ok", StreamEvent.done "end_turn"]
      rfl rfl rfl
  · exact c2_degradation_simple_only.2.1 (fun _ => ProviderResponse.raises [])
      (fun _ => ⟨"", "", false⟩) "hi" [] [] rfl rfl
  · exact c2_degradation_simple_only.2.2
      (fun _ => ProviderResponse.raises [StreamEvent.text "partial"])
      (fun _ => ⟨"", "", false⟩) (fun _ => ⟨"", "", false⟩) "hi" [] [StreamEvent.text "partial"] rfl
